import Mathlib

/-!
Verification of the ACO (Ant Colony Optimisation) engine for the Quadratic
Assignment Problem, as implemented in `main.py`.

Modelling conventions:
* Matrices are lists of rows.  The distance and flow matrices hold integers
  (the input file format only has integers), the pheromone matrix holds
  rationals (standing in for Python floats; all arithmetic performed by the
  program on them is exact field arithmetic, so ℚ is a faithful carrier).
* `np.random.random()` draws used by `__init__` are modelled by an explicit
  source `rng : ℕ → ℕ → ℚ`; the uniform draws consumed by
  `np.random.choice` are modelled by an explicit list of rationals in [0,1),
  one per selection step.
* Python exceptions (IndexError from `ants[ant_number]`, ZeroDivisionError
  from `1 / self.fitness`, and the ValueError raised by `np.random.choice`
  when the probability vector contains NaN — which happens exactly when the
  weight sum is 0 — or a negative entry, or has the wrong length) are
  modelled by `Option`: `none` means the program raises.
* Out-of-range list reads are modelled with `getD` defaults; they are never
  exercised on the executions the theorems talk about.
-/

namespace ACO

/-- Entry `(i, j)` of a matrix represented as a list of rows; out-of-range
reads default to `0`. -/
def entry (m : List (List ℚ)) (i j : ℕ) : ℚ := (m.getD i []).getD j 0

/-- The colony object produced by `AntColony.__init__`: the constructor
arguments are stored as attributes and `pheromone_matrix` is the shared
pheromone store. -/
structure AntColony where
  number_of_ants : ℕ
  evaporation_rate : ℚ
  number_of_nodes : ℕ
  distance_matrix : List (List ℤ)
  flow_matrix : List (List ℤ)
  pheromone_matrix : List (List ℚ)
  deriving DecidableEq

/-- `AntColony.__init__(number_of_ants, evaporation_rate, data)`: stores the
arguments (no validation of any kind is performed) and initialises the
`(N+1)×(N+1)` pheromone matrix with `0` on the diagonal and a fresh random
draw `rng i j` off the diagonal. -/
def AntColony.init (number_of_ants : ℕ) (evaporation_rate : ℚ)
    (number_of_nodes : ℕ) (distance_matrix flow_matrix : List (List ℤ))
    (rng : ℕ → ℕ → ℚ) : AntColony :=
  ⟨number_of_ants, evaporation_rate, number_of_nodes, distance_matrix,
    flow_matrix,
    (List.range (number_of_nodes + 1)).map (fun i =>
      (List.range (number_of_nodes + 1)).map (fun j =>
        if i ≠ j then rng i j else 0))⟩

/-- `AntColony.evaporatePheromones`: `np.multiply(self.pheromone_matrix,
self.evaporation_rate)` — every entry is multiplied by the evaporation
rate. -/
def evaporatePheromones (ph : List (List ℚ)) (evaporation_rate : ℚ) :
    List (List ℚ) :=
  ph.map (List.map (fun x => x * evaporation_rate))

/-- The mutable scratch state of an `Ant` (`current_node`, `allowed_nodes`,
`path`).  `allowed_nodes` holds `1` for selectable nodes and `0` otherwise;
the program multiplies it pointwise into a float vector, so we carry it as
rationals directly. -/
structure AntState where
  current_node : ℕ
  allowed_nodes : List ℚ
  path : List ℕ
  deriving DecidableEq

/-- The state installed at the start of `Ant.calculatePath`: current node is
the pseudo-start node `0`, `allowed_nodes = [0, 1, 1, …, 1]` (length `N+1`),
and the path is empty. -/
def initAntState (N : ℕ) : AntState :=
  ⟨0, 0 :: List.replicate N 1, []⟩

/-- Cumulative-sum sampling as performed by `np.random.choice(n, p = probs)`
with a uniform draw `r`: the selected index is the first one whose
cumulative probability strictly exceeds `r`. -/
def sampleAux : List ℚ → ℚ → ℕ
  | [], _ => 0
  | w :: ws, r => if r < w then 0 else sampleAux ws (r - w) + 1

/-- `Ant.chooseNextNode`, one selection step.  The weight vector is the
pheromone row of the current node multiplied pointwise by `allowed_nodes`;
it is divided by its sum to give the probability vector handed to
`np.random.choice(N + 1, p = …)`.  `none` models the exception numpy raises
when the sum is `0` (the division yields NaN probabilities), when the vector
length differs from `N + 1`, or when some probability is negative. -/
def chooseNextNode (N : ℕ) (ph : List (List ℚ)) (st : AntState) (u : ℚ) :
    Option AntState :=
  let next_node_weightings :=
    List.zipWith (fun p a => p * a) (ph.getD st.current_node []) st.allowed_nodes
  let s := next_node_weightings.sum
  let next_node_probabilities := next_node_weightings.map (fun w => w / s)
  if s = 0 then none
  else if next_node_probabilities.length ≠ N + 1 then none
  else if ∀ q ∈ next_node_probabilities, 0 ≤ q then
    let next_node := sampleAux next_node_probabilities u
    some ⟨next_node, st.allowed_nodes.set next_node 0, st.path ++ [next_node]⟩
  else none

/-- The `for i in range(N)` loop body of `Ant.calculatePath`: `n` remaining
iterations of `chooseNextNode`, consuming one uniform draw per step. -/
def buildSteps (N : ℕ) (ph : List (List ℚ)) :
    ℕ → AntState → List ℚ → Option AntState
  | 0, st, _ => some st
  | n + 1, st, us =>
    (chooseNextNode N ph st (us.headD 0)).bind
      (fun st2 => buildSteps N ph n st2 us.tail)

/-- `Ant.calculatePath`: reset the scratch state, run `N` selection steps,
return the accumulated path. -/
def calculatePath (N : ℕ) (ph : List (List ℚ)) (us : List ℚ) :
    Option (List ℕ) :=
  (buildSteps N ph N (initAntState N) us).map AntState.path

/-- `Ant.calculatePathFitness`: the double `for` loop accumulating
`distance_matrix[i][j] * flow_matrix[path[i] - 1][path[j] - 1]` into
`self.fitness`, starting from `0`. -/
def calculatePathFitness (D F : List (List ℤ)) (path : List ℕ) : ℤ :=
  (List.range path.length).foldl (fun acc i =>
    (List.range path.length).foldl (fun acc2 j =>
      acc2 + (D.getD i []).getD j 0 *
        (F.getD (path.getD i 0 - 1) []).getD (path.getD j 0 - 1) 0) acc) 0

/-- One `+=` on a single pheromone-matrix cell:
`pheromone_matrix[i][j] += amount`. -/
def depositEdge (ph : List (List ℚ)) (i j : ℕ) (amount : ℚ) :
    List (List ℚ) :=
  ph.set i ((ph.getD i []).set j ((ph.getD i []).getD j 0 + amount))

/-- `Ant.updatePheromones`: `pheromone_amount = 1 / fitness`, added to the
cell `(0, path[0])` and then to `(path[i], path[i+1])` for
`i in range(0, len(path) - 1)`.  Only these forward-direction cells are
touched — the source contains no symmetric (reverse-direction) update. -/
def updatePheromones (ph : List (List ℚ)) (path : List ℕ) (fitness : ℚ) :
    List (List ℚ) :=
  let pheromone_amount := 1 / fitness
  let ph1 := depositEdge ph 0 (path.getD 0 0) pheromone_amount
  (List.range (path.length - 1)).foldl
    (fun m i => depositEdge m (path.getD i 0) (path.getD (i + 1) 0)
      pheromone_amount) ph1

/-- The list of directed cells written by `Ant.updatePheromones` on `path`:
the pseudo-start edge followed by the forward consecutive-pair edges. -/
def pathEdges (path : List ℕ) : List (ℕ × ℕ) :=
  (0, path.getD 0 0) ::
    (List.range (path.length - 1)).map
      (fun i => (path.getD i 0, path.getD (i + 1) 0))

/-- Folding `depositEdge` over a list of cells with a fixed amount. -/
def depositList (ph : List (List ℚ)) (es : List (ℕ × ℕ)) (amount : ℚ) :
    List (List ℚ) :=
  es.foldl (fun m e => depositEdge m e.1 e.2 amount) ph

/-- The loop state of `AntColony.run`: the shared pheromone store, each
ant's stored path and fitness, the best (fitness, path) pair seen so far
(`none` before the first evaluation), the `results` list, and the
`ant_number` counter. -/
structure RunState where
  pheromone : List (List ℚ)
  antPaths : List (List ℕ)
  antFitness : List ℤ
  best : Option (ℤ × List ℕ)
  results : List ℤ
  antNumber : ℕ
  deriving DecidableEq

/-- The batch-boundary loop `for ant in ants: ant.updatePheromones()`:
each ant deposits its stored path with its stored fitness, in list order.
`none` models the ZeroDivisionError of `1 / self.fitness` when a stored
fitness is `0`. -/
def depositAll (ph : List (List ℚ)) : List (List ℕ × ℤ) → Option (List (List ℚ))
  | [] => some ph
  | (p, f) :: rest =>
    if f = 0 then none else depositAll (updatePheromones ph p (f : ℚ)) rest

/-- The best-so-far update of `AntColony.run`: replace when there is no best
yet or the new fitness is strictly smaller. -/
def updateBest : Option (ℤ × List ℕ) → ℤ → List ℕ → Option (ℤ × List ℕ)
  | none, fitness, path => some (fitness, path)
  | some (bf, bp), fitness, path =>
    if fitness < bf then some (fitness, path) else some (bf, bp)

/-- One iteration of the `for i in progress_bar` loop of `AntColony.run`.
`none` models the IndexError of `ants[ant_number]` when the counter is out
of range.  At a batch boundary (`ant_number > number_of_ants - 2`, an `int`
comparison, hence the casts to ℤ) every ant deposits, the counter is reset
to `0`, and — faithfully to the source — `self.evaporatePheromones` is a
bare attribute access, *not* a call, so no evaporation happens; the final
`ant_number += 1` then leaves the counter at `1`. -/
def runStep (col : AntColony) (s : RunState) (us : List ℚ) : Option RunState :=
  if s.antNumber < col.number_of_ants then
    (calculatePath col.number_of_nodes s.pheromone us).bind (fun path =>
      let fitness := calculatePathFitness col.distance_matrix col.flow_matrix path
      let best2 := updateBest s.best fitness path
      let results2 := s.results ++ [fitness]
      let paths2 := s.antPaths.set s.antNumber path
      let fits2 := s.antFitness.set s.antNumber fitness
      if (s.antNumber : ℤ) > (col.number_of_ants : ℤ) - 2 then
        (depositAll s.pheromone (paths2.zip fits2)).map
          (fun ph2 => ⟨ph2, paths2, fits2, best2, results2, 0 + 1⟩)
      else
        some ⟨s.pheromone, paths2, fits2, best2, results2, s.antNumber + 1⟩)
  else none

/-- Iterating `runStep`, one element of `uss` (the per-step uniform draws)
per evaluation step. -/
def runSteps (col : AntColony) : RunState → List (List ℚ) → Option RunState
  | s, [] => some s
  | s, us :: rest => (runStep col s us).bind (fun s2 => runSteps col s2 rest)

/-- The state of `AntColony.run` just before its main loop: fresh ants (the
stored paths and fitnesses are placeholders that the source never reads
before overwriting them), no best yet, empty results, counter `0`. -/
def initRunState (col : AntColony) : RunState :=
  ⟨col.pheromone_matrix, List.replicate col.number_of_ants [],
    List.replicate col.number_of_ants 0, none, [], 0⟩

/-- `AntColony.run(fitness_evaluations)`: the number of evaluation steps is
`uss.length`, one uniform-draw list per step. -/
def AntColony.run (col : AntColony) (uss : List (List ℚ)) : Option RunState :=
  runSteps col (initRunState col) uss

/-- A concrete colony used in witnesses: `N = 1`, five ants,
`D = [[2]]`, `F = [[1]]`, evaporation rate `1/2`, pheromone store
`[[0, 1], [1, 0]]`.  Every constructed path is `[1]` with fitness `2`. -/
def col13 : AntColony := ⟨5, 1/2, 1, [[2]], [[1]], [[0, 1], [1, 0]]⟩

/-- A `3×3` all-zero pheromone store (`N = 2`): every selection step has a
zero weight sum. -/
def zeroPh3 : List (List ℚ) := [[0, 0, 0], [0, 0, 0], [0, 0, 0]]

/-- A concrete positive `3×3` pheromone store for an `N = 2` instance. -/
def ph3 : List (List ℚ) := [[0, 1, 1], [1, 0, 1], [1, 1, 0]]

/-- The run-loop state after one evaluation step of `col13` (used as a
concrete run record in witnesses). -/
def rec1demo : RunState :=
  ⟨[[0, 1], [1, 0]], [[1], [], [], [], []], [2, 0, 0, 0, 0],
    some (2, [1]), [2], 1⟩

/-- The run-loop state after two evaluation steps of `col13`. -/
def rec2demo : RunState :=
  ⟨[[0, 1], [1, 0]], [[1], [1], [], [], []], [2, 2, 0, 0, 0],
    some (2, [1]), [2, 2], 2⟩

/-- Invariant of an ant's scratch state during path construction:
`allowed_nodes` has length `N + 1` with `0/1` entries, a node marked `1` is a
facility in `1..N` not yet on the path, the path has no duplicates, and all
its entries are facilities in `1..N`. -/
def AntInv (N : ℕ) (st : AntState) : Prop :=
  st.allowed_nodes.length = N + 1 ∧
  (∀ k, st.allowed_nodes.getD k 0 = 0 ∨ st.allowed_nodes.getD k 0 = 1) ∧
  (∀ k, st.allowed_nodes.getD k 0 = 1 → 1 ≤ k ∧ k ≤ N ∧ k ∉ st.path) ∧
  st.path.Nodup ∧ (∀ x ∈ st.path, 1 ≤ x ∧ x ≤ N)

/-- Invariant of the run-loop state: if there is no best yet the results are
empty; if the results are nonempty a best exists; and the recorded best
fitness is a minimum of `results` achieved by the recorded best path. -/
def RunInv (col : AntColony) (s : RunState) : Prop :=
  (s.best = none → s.results = []) ∧
  (s.results ≠ [] → s.best ≠ none) ∧
  (∀ f p, s.best = some (f, p) →
    f ∈ s.results ∧ (∀ g ∈ s.results, f ≤ g) ∧
    calculatePathFitness col.distance_matrix col.flow_matrix p = f)

/-! ### Helper lemmas -/

lemma getD_map_range {α : Type} (d : α) (f : ℕ → α) (n i : ℕ) :
    ((List.range n).map f).getD i d = if i < n then f i else d := by
  rw [List.getD_eq_getElem?_getD, List.getElem?_map]
  split
  · rename_i h
    rw [List.getElem?_range h]
    rfl
  · rename_i h
    rw [List.getElem?_eq_none (by simpa using Nat.le_of_not_lt h)]
    rfl

lemma foldl_add_eq {α : Type} (f : α → ℤ) (l : List α) (a : ℤ) :
    l.foldl (fun acc i => acc + f i) a = a + (l.map f).sum := by
  induction l generalizing a with
  | nil => simp
  | cons x t ih => simp [ih, add_assoc]

lemma sum_map_range_int (f : ℕ → ℤ) (n : ℕ) :
    ((List.range n).map f).sum = ∑ i ∈ Finset.range n, f i := by
  induction n with
  | zero => simp
  | succ m ih =>
    rw [List.range_succ, List.map_append, List.sum_append,
      Finset.sum_range_succ, ih]
    simp

lemma sum_map_div (l : List ℚ) (s : ℚ) :
    (l.map (fun x => x / s)).sum = l.sum / s := by
  induction l with
  | nil => simp
  | cons x t ih => simp [ih, add_div]

lemma getD_set_eq {α : Type} (l : List α) (i : ℕ) (x : α) (k : ℕ) (d : α) :
    (l.set i x).getD k d = if i = k ∧ i < l.length then x else l.getD k d := by
  rw [List.getD_eq_getElem?_getD, List.getElem?_set, List.getD_eq_getElem?_getD]
  by_cases hik : i = k
  · subst hik
    by_cases hi : i < l.length
    · simp [hi]
    · simp [hi, List.getElem?_eq_none (Nat.le_of_not_lt hi)]
  · simp [hik]

lemma depositEdge_length (ph : List (List ℚ)) (i j : ℕ) (a : ℚ) :
    (depositEdge ph i j a).length = ph.length := by
  simp [depositEdge]

lemma depositEdge_getD_length (ph : List (List ℚ)) (i j : ℕ) (a : ℚ) (k : ℕ) :
    ((depositEdge ph i j a).getD k []).length = (ph.getD k []).length := by
  unfold depositEdge
  rw [getD_set_eq]
  by_cases h : i = k ∧ i < ph.length
  · obtain ⟨hik, hi⟩ := h
    subst hik
    rw [if_pos ⟨rfl, hi⟩, List.length_set]
  · rw [if_neg h]

lemma entry_depositEdge (ph : List (List ℚ)) (i j : ℕ) (a : ℚ) (k l : ℕ) :
    entry (depositEdge ph i j a) k l =
      if k = i ∧ l = j ∧ i < ph.length ∧ j < (ph.getD i []).length then
        entry ph k l + a
      else entry ph k l := by
  unfold entry depositEdge
  rw [getD_set_eq]
  by_cases h1 : i = k ∧ i < ph.length
  · obtain ⟨hik, hi⟩ := h1
    subst hik
    rw [if_pos ⟨rfl, hi⟩, getD_set_eq]
    by_cases h2 : j = l ∧ j < (ph.getD i []).length
    · obtain ⟨hjl, hj⟩ := h2
      subst hjl
      rw [if_pos ⟨rfl, hj⟩, if_pos ⟨rfl, rfl, hi, hj⟩]
    · rw [if_neg h2, if_neg ?_]
      rintro ⟨-, hlj, -, hj⟩
      exact h2 ⟨hlj.symm, hj⟩
  · rw [if_neg h1, if_neg ?_]
    rintro ⟨hki, -, hi, -⟩
    exact h1 ⟨hki.symm, hi⟩

lemma entry_depositEdge_ne (ph : List (List ℚ)) (i j : ℕ) (a : ℚ) (k l : ℕ)
    (h : ¬(k = i ∧ l = j)) :
    entry (depositEdge ph i j a) k l = entry ph k l := by
  rw [entry_depositEdge, if_neg ?_]
  rintro ⟨hki, hlj, -, -⟩
  exact h ⟨hki, hlj⟩

lemma entry_depositEdge_self (ph : List (List ℚ)) (i j : ℕ) (a : ℚ)
    (hi : i < ph.length) (hj : j < (ph.getD i []).length) :
    entry (depositEdge ph i j a) i j = entry ph i j + a := by
  rw [entry_depositEdge, if_pos ⟨rfl, rfl, hi, hj⟩]

lemma entry_depositEdge_le (ph : List (List ℚ)) (i j : ℕ) (a : ℚ) (k l : ℕ)
    (ha : 0 ≤ a) :
    entry ph k l ≤ entry (depositEdge ph i j a) k l := by
  rw [entry_depositEdge]
  split
  · linarith
  · exact le_refl _

lemma depositList_cons (ph : List (List ℚ)) (e : ℕ × ℕ) (es : List (ℕ × ℕ))
    (a : ℚ) :
    depositList ph (e :: es) a = depositList (depositEdge ph e.1 e.2 a) es a :=
  rfl

lemma depositList_length (ph : List (List ℚ)) (es : List (ℕ × ℕ)) (a : ℚ) :
    (depositList ph es a).length = ph.length := by
  induction es generalizing ph with
  | nil => rfl
  | cons e rest ih =>
    rw [depositList_cons, ih, depositEdge_length]

lemma depositList_getD_length (ph : List (List ℚ)) (es : List (ℕ × ℕ)) (a : ℚ)
    (k : ℕ) :
    ((depositList ph es a).getD k []).length = (ph.getD k []).length := by
  induction es generalizing ph with
  | nil => rfl
  | cons e rest ih =>
    rw [depositList_cons, ih, depositEdge_getD_length]

lemma entry_depositList_le (ph : List (List ℚ)) (es : List (ℕ × ℕ)) (a : ℚ)
    (k l : ℕ) (ha : 0 ≤ a) :
    entry ph k l ≤ entry (depositList ph es a) k l := by
  induction es generalizing ph with
  | nil => exact le_refl _
  | cons e rest ih =>
    rw [depositList_cons]
    exact le_trans (entry_depositEdge_le ph e.1 e.2 a k l ha) (ih _)

lemma entry_depositList (ph : List (List ℚ)) (es : List (ℕ × ℕ)) (a : ℚ)
    (hnd : es.Nodup)
    (hb : ∀ e ∈ es, e.1 < ph.length ∧ e.2 < (ph.getD e.1 []).length)
    (k l : ℕ) :
    entry (depositList ph es a) k l =
      if (k, l) ∈ es then entry ph k l + a else entry ph k l := by
  induction es generalizing ph with
  | nil => simp [depositList]
  | cons e rest ih =>
    obtain ⟨i, j⟩ := e
    rw [depositList_cons]
    have hb1 := hb (i, j) (List.mem_cons_self _ _)
    have hbrest : ∀ e' ∈ rest,
        e'.1 < (depositEdge ph i j a).length ∧
        e'.2 < ((depositEdge ph i j a).getD e'.1 []).length := by
      intro e' he'
      obtain ⟨h1, h2⟩ := hb e' (List.mem_cons_of_mem _ he')
      rw [depositEdge_length, depositEdge_getD_length]
      exact ⟨h1, h2⟩
    have hne := (List.nodup_cons.mp hnd).1
    have hndr := (List.nodup_cons.mp hnd).2
    rw [ih _ hndr hbrest]
    by_cases hkl : (k, l) ∈ rest
    · rw [if_pos hkl, if_pos (List.mem_cons_of_mem _ hkl),
        entry_depositEdge_ne]
      rintro ⟨hk, hl⟩
      subst hk; subst hl
      exact hne hkl
    · rw [if_neg hkl]
      by_cases hke : k = i ∧ l = j
      · obtain ⟨hk, hl⟩ := hke
        subst hk; subst hl
        rw [entry_depositEdge_self ph k l a hb1.1 hb1.2,
          if_pos (List.mem_cons_self _ _)]
      · rw [entry_depositEdge_ne ph i j a k l hke, if_neg ?_]
        intro hmem
        rcases List.mem_cons.mp hmem with h | h
        · exact hke ⟨congrArg Prod.fst h, congrArg Prod.snd h⟩
        · exact hkl h

lemma updatePheromones_eq_depositList (ph : List (List ℚ)) (path : List ℕ)
    (f : ℚ) :
    updatePheromones ph path f = depositList ph (pathEdges path) (1 / f) := by
  simp [updatePheromones, depositList, pathEdges, List.foldl_map]

lemma getD_mem_nat (l : List ℕ) {i : ℕ} (hi : i < l.length) :
    l.getD i 0 ∈ l := by
  rw [List.getD_eq_getElem l 0 hi]
  exact List.getElem_mem hi

lemma nodup_getD_inj (l : List ℕ) (h : l.Nodup) {i j : ℕ}
    (hi : i < l.length) (hj : j < l.length)
    (he : l.getD i 0 = l.getD j 0) : i = j := by
  rw [List.getD_eq_getElem l 0 hi, List.getD_eq_getElem l 0 hj] at he
  exact (List.Nodup.getElem_inj_iff h).mp he

lemma mapGetD_range (l : List ℕ) (n : ℕ) (h : n ≤ l.length) :
    (List.range n).map (fun i => l.getD i 0) = l.take n := by
  induction n with
  | zero => simp
  | succ m ih =>
    have hm : m < l.length := Nat.lt_of_lt_of_le (Nat.lt_succ_self m) h
    rw [List.range_succ, List.map_append, ih (Nat.le_of_lt hm), List.take_succ]
    simp [List.getElem?_eq_getElem hm, List.getD_eq_getElem l 0 hm]

lemma pathEdges_map_fst (path : List ℕ) :
    (pathEdges path).map Prod.fst = 0 :: path.take (path.length - 1) := by
  unfold pathEdges
  rw [List.map_cons, List.map_map,
    show (Prod.fst ∘ fun i => (path.getD i 0, path.getD (i + 1) 0)) =
      fun i => path.getD i 0 from rfl,
    mapGetD_range path _ (Nat.sub_le _ _)]

lemma pathEdges_nodup (path : List ℕ) (hnd : path.Nodup)
    (hpos : ∀ x ∈ path, 1 ≤ x) : (pathEdges path).Nodup := by
  apply List.Nodup.of_map Prod.fst
  rw [pathEdges_map_fst, List.nodup_cons]
  constructor
  · intro hmem
    have h0 : (0 : ℕ) ∈ path := (List.take_sublist _ _).mem hmem
    exact absurd (hpos 0 h0) (by omega)
  · exact List.Nodup.sublist (List.take_sublist _ _) hnd

lemma pathEdges_length (path : List ℕ) (h : path ≠ []) :
    (pathEdges path).length = path.length := by
  unfold pathEdges
  rw [List.length_cons, List.length_map, List.length_range]
  have : 0 < path.length := List.length_pos.mpr h
  omega

lemma pathEdges_bounds (N : ℕ) (path : List ℕ) (hlen : path.length = N)
    (hN : 0 < N) (hrange : ∀ x ∈ path, 1 ≤ x ∧ x ≤ N) :
    ∀ e ∈ pathEdges path, e.1 < N + 1 ∧ e.2 < N + 1 := by
  intro e he
  unfold pathEdges at he
  rcases List.mem_cons.mp he with h | h
  · subst h
    refine ⟨by omega, ?_⟩
    have h0 : 0 < path.length := by omega
    have := hrange _ (getD_mem_nat path h0)
    omega
  · rcases List.mem_map.mp h with ⟨i, hi, hei⟩
    rw [List.mem_range] at hi
    have hi1 : i < path.length := by omega
    have hi2 : i + 1 < path.length := by omega
    have e1 := hrange _ (getD_mem_nat path hi1)
    have e2 := hrange _ (getD_mem_nat path hi2)
    rw [← hei]
    exact ⟨by omega, by omega⟩

lemma diag_not_mem_pathEdges (path : List ℕ) (hnd : path.Nodup)
    (hpos : ∀ x ∈ path, 1 ≤ x) (hne : path ≠ []) (k : ℕ) :
    (k, k) ∉ pathEdges path := by
  intro hmem
  unfold pathEdges at hmem
  have h0 : 0 < path.length := List.length_pos.mpr hne
  rcases List.mem_cons.mp hmem with h | h
  · have h1 : k = 0 := congrArg Prod.fst h
    have h2 : k = path.getD 0 0 := congrArg Prod.snd h
    have := hpos _ (getD_mem_nat path h0)
    omega
  · rcases List.mem_map.mp h with ⟨i, hi, hei⟩
    rw [List.mem_range] at hi
    have h1 : path.getD i 0 = k := congrArg Prod.fst hei
    have h2 : path.getD (i + 1) 0 = k := congrArg Prod.snd hei
    have : i = i + 1 :=
      nodup_getD_inj path hnd (by omega) (by omega) (h1.trans h2.symm)
    omega

lemma reverse_not_mem_pathEdges (path : List ℕ) (hnd : path.Nodup)
    (hpos : ∀ x ∈ path, 1 ≤ x) (i : ℕ) (hi : i + 1 < path.length) :
    (path.getD (i + 1) 0, path.getD i 0) ∉ pathEdges path := by
  intro hmem
  unfold pathEdges at hmem
  rcases List.mem_cons.mp hmem with h | h
  · have h1 : path.getD (i + 1) 0 = 0 := congrArg Prod.fst h
    have := hpos _ (getD_mem_nat path (show i + 1 < path.length from hi))
    omega
  · rcases List.mem_map.mp h with ⟨j, hj, hej⟩
    rw [List.mem_range] at hj
    have h1 : path.getD j 0 = path.getD (i + 1) 0 := congrArg Prod.fst hej
    have h2 : path.getD (j + 1) 0 = path.getD i 0 := congrArg Prod.snd hej
    have hji : j = i + 1 := nodup_getD_inj path hnd (by omega) (by omega) h1
    subst hji
    have : i + 1 + 1 = i := nodup_getD_inj path hnd (by omega) (by omega) h2
    omega

lemma sampleAux_spec : ∀ (w : List ℚ) (r : ℚ), 0 ≤ r → r < w.sum →
    (∀ x ∈ w, 0 ≤ x) →
    sampleAux w r < w.length ∧ 0 < w.getD (sampleAux w r) 0 := by
  intro w
  induction w with
  | nil =>
    intro r h0 h1 _
    rw [List.sum_nil] at h1
    exact absurd h1 (by linarith)
  | cons x t ih =>
    intro r h0 h1 hw
    unfold sampleAux
    by_cases hr : r < x
    · rw [if_pos hr]
      refine ⟨by simp, ?_⟩
      rw [List.getD_cons_zero]
      linarith
    · rw [if_neg hr]
      have hx : 0 ≤ x := hw x (List.mem_cons_self _ _)
      have h0' : 0 ≤ r - x := by
        have := not_lt.mp hr
        linarith
      have h1' : r - x < t.sum := by
        rw [List.sum_cons] at h1
        linarith
      have hw' : ∀ y ∈ t, 0 ≤ y := fun y hy => hw y (List.mem_cons_of_mem _ hy)
      obtain ⟨ha, hb⟩ := ih (r - x) h0' h1' hw'
      refine ⟨by simp [Nat.succ_lt_succ ha], ?_⟩
      rw [List.getD_cons_succ]
      exact hb

lemma getD_map_div (w : List ℚ) (s : ℚ) (k : ℕ) (hk : k < w.length) :
    (w.map (fun x => x / s)).getD k 0 = w.getD k 0 / s := by
  rw [List.getD_eq_getElem _ 0 (by simpa using hk), List.getD_eq_getElem w 0 hk]
  exact List.getElem_map _

lemma getD_zipWith (f : ℚ → ℚ → ℚ) (a b : List ℚ) (k : ℕ)
    (hk : k < (List.zipWith f a b).length) :
    (List.zipWith f a b).getD k 0 = f (a.getD k 0) (b.getD k 0) := by
  have hka : k < a.length := by
    rw [List.length_zipWith] at hk
    exact lt_of_lt_of_le hk inf_le_left
  have hkb : k < b.length := by
    rw [List.length_zipWith] at hk
    exact lt_of_lt_of_le hk inf_le_right
  rw [List.getD_eq_getElem _ 0 hk, List.getD_eq_getElem a 0 hka,
    List.getD_eq_getElem b 0 hkb]
  exact List.getElem_zipWith

lemma chooseNextNode_some {N : ℕ} {ph : List (List ℚ)} {st st' : AntState}
    {u : ℚ} (hu0 : 0 ≤ u) (hu1 : u < 1)
    (h : chooseNextNode N ph st u = some st') :
    ∃ k, k < st.allowed_nodes.length ∧ st.allowed_nodes.getD k 0 ≠ 0 ∧
      st' = ⟨k, st.allowed_nodes.set k 0, st.path ++ [k]⟩ := by
  simp only [chooseNextNode] at h
  set w := List.zipWith (fun p a => p * a) (ph.getD st.current_node [])
    st.allowed_nodes with hw
  by_cases hs : w.sum = 0
  · rw [if_pos hs] at h
    cases h
  rw [if_neg hs] at h
  by_cases hlen : (w.map (fun x => x / w.sum)).length ≠ N + 1
  · rw [if_pos hlen] at h
    cases h
  rw [if_neg hlen] at h
  by_cases hq : ∀ q ∈ w.map (fun x => x / w.sum), 0 ≤ q
  swap
  · rw [if_neg hq] at h
    cases h
  rw [if_pos hq] at h
  have hst : st' = ⟨sampleAux (w.map (fun x => x / w.sum)) u,
      st.allowed_nodes.set (sampleAux (w.map (fun x => x / w.sum)) u) 0,
      st.path ++ [sampleAux (w.map (fun x => x / w.sum)) u]⟩ :=
    (Option.some.inj h).symm
  set probs := w.map (fun x => x / w.sum) with hprobs
  have hsum : probs.sum = 1 := by
    rw [hprobs, sum_map_div, div_self hs]
  obtain ⟨hk1, hk2⟩ :=
    sampleAux_spec probs u hu0 (by rw [hsum]; exact hu1) hq
  set k := sampleAux probs u with hkdef
  have hkw : k < w.length := by
    rw [hprobs, List.length_map] at hk1
    exact hk1
  have hprobk : probs.getD k 0 = w.getD k 0 / w.sum := by
    rw [hprobs]
    exact getD_map_div w w.sum k hkw
  have hwk : w.getD k 0 ≠ 0 := by
    intro h0
    rw [hprobk, h0, zero_div] at hk2
    exact absurd hk2 (by norm_num)
  have hka : k < st.allowed_nodes.length := by
    have hlw := List.length_zipWith (fun p a => p * a)
      (ph.getD st.current_node []) st.allowed_nodes
    rw [← hw] at hlw
    rw [hlw] at hkw
    exact lt_of_lt_of_le hkw inf_le_right
  have hane : st.allowed_nodes.getD k 0 ≠ 0 := by
    intro ha0
    apply hwk
    have hkw' : k < (List.zipWith (fun p a => p * a)
        (ph.getD st.current_node []) st.allowed_nodes).length := by
      rw [← hw]
      exact hkw
    rw [hw, getD_zipWith _ _ _ k hkw', ha0, mul_zero]
  exact ⟨k, hka, hane, hst⟩

lemma getD_replicate_q (N k : ℕ) (x : ℚ) :
    (List.replicate N x).getD k 0 = if k < N then x else 0 := by
  by_cases h : k < N
  · rw [List.getD_eq_getElem _ 0 (by simpa using h), List.getElem_replicate,
      if_pos h]
  · rw [List.getD_eq_getElem?_getD,
      List.getElem?_eq_none (by simpa using Nat.le_of_not_lt h), if_neg h]
    rfl

lemma antInv_init (N : ℕ) : AntInv N (initAntState N) := by
  refine ⟨by simp [initAntState], ?_, ?_, by simp [initAntState],
    by simp [initAntState]⟩
  · intro k
    cases k with
    | zero => left; rfl
    | succ m =>
      have hst : (initAntState N).allowed_nodes.getD (m + 1) 0 =
          (List.replicate N (1 : ℚ)).getD m 0 := by
        show ((0 : ℚ) :: List.replicate N 1).getD (m + 1) 0 = _
        rw [List.getD_cons_succ]
      rw [hst, getD_replicate_q]
      split
      · right; rfl
      · left; rfl
  · intro k hk
    cases k with
    | zero =>
      rw [show (initAntState N).allowed_nodes.getD 0 0 = 0 from rfl] at hk
      exact absurd hk (by norm_num)
    | succ m =>
      show 1 ≤ m + 1 ∧ m + 1 ≤ N ∧ m + 1 ∉ (initAntState N).path
      have : ((0 : ℚ) :: List.replicate N 1).getD (m + 1) 0 = 1 := hk
      rw [List.getD_cons_succ, getD_replicate_q] at this
      by_cases hm : m < N
      · exact ⟨by omega, by omega, by simp [initAntState]⟩
      · rw [if_neg hm] at this
        exact absurd this (by norm_num)

lemma antInv_step {N : ℕ} {ph : List (List ℚ)} {st st' : AntState} {u : ℚ}
    (hu0 : 0 ≤ u) (hu1 : u < 1) (hinv : AntInv N st)
    (h : chooseNextNode N ph st u = some st') :
    AntInv N st' ∧ st'.path.length = st.path.length + 1 := by
  obtain ⟨k, hk, hkne, hst⟩ := chooseNextNode_some hu0 hu1 h
  obtain ⟨hlen, h01, hone, hnd, hrange⟩ := hinv
  have hk1 : st.allowed_nodes.getD k 0 = 1 := by
    rcases h01 k with h' | h'
    · exact absurd h' hkne
    · exact h'
  obtain ⟨hk_ge, hk_le, hk_nin⟩ := hone k hk1
  subst hst
  refine ⟨⟨?_, ?_, ?_, ?_, ?_⟩, by simp⟩
  · simp [List.length_set, hlen]
  · intro j
    show (st.allowed_nodes.set k 0).getD j 0 = 0 ∨ _
    rw [getD_set_eq]
    by_cases hj : k = j ∧ k < st.allowed_nodes.length
    · rw [if_pos hj]
      left
      rfl
    · rw [if_neg hj]
      exact h01 j
  · intro j hj
    replace hj : (st.allowed_nodes.set k 0).getD j 0 = 1 := hj
    rw [getD_set_eq] at hj
    by_cases hkj : k = j ∧ k < st.allowed_nodes.length
    · rw [if_pos hkj] at hj
      exact absurd hj (by norm_num)
    · rw [if_neg hkj] at hj
      obtain ⟨g1, g2, g3⟩ := hone j hj
      refine ⟨g1, g2, ?_⟩
      show j ∉ st.path ++ [k]
      rw [List.mem_append, List.mem_singleton]
      rintro (h' | h')
      · exact g3 h'
      · exact hkj ⟨h'.symm, hk⟩
  · show (st.path ++ [k]).Nodup
    rw [List.nodup_append]
    refine ⟨hnd, List.nodup_singleton _, ?_⟩
    intro a ha hb
    rw [List.mem_singleton] at hb
    subst hb
    exact hk_nin ha
  · intro x hx
    rcases List.mem_append.mp hx with h' | h'
    · exact hrange x h'
    · rw [List.mem_singleton] at h'
      subst h'
      exact ⟨hk_ge, hk_le⟩

lemma buildSteps_inv {N : ℕ} {ph : List (List ℚ)} :
    ∀ (n : ℕ) (st : AntState) (us : List ℚ) (st' : AntState),
    (∀ u ∈ us, 0 ≤ u ∧ u < 1) → AntInv N st →
    buildSteps N ph n st us = some st' →
    AntInv N st' ∧ st'.path.length = st.path.length + n := by
  intro n
  induction n with
  | zero =>
    intro st us st' _ hinv h
    obtain rfl : st = st' := Option.some.inj h
    exact ⟨hinv, rfl⟩
  | succ m ih =>
    intro st us st' hus hinv h
    unfold buildSteps at h
    cases hc : chooseNextNode N ph st (us.headD 0) with
    | none =>
      rw [hc, Option.none_bind] at h
      cases h
    | some st2 =>
      rw [hc, Option.some_bind] at h
      have hu : 0 ≤ us.headD 0 ∧ us.headD 0 < 1 := by
        cases us with
        | nil => norm_num
        | cons v t => exact hus v (List.mem_cons_self _ _)
      obtain ⟨hinv2, hlen2⟩ := antInv_step hu.1 hu.2 hinv hc
      have hust : ∀ u ∈ us.tail, 0 ≤ u ∧ u < 1 :=
        fun u hu' => hus u (List.mem_of_mem_tail hu')
      obtain ⟨hinv', hlen'⟩ := ih st2 us.tail st' hust hinv2 h
      exact ⟨hinv', by omega⟩

lemma start_edge_mem_pathEdges (path : List ℕ) :
    (0, path.getD 0 0) ∈ pathEdges path := by
  unfold pathEdges
  exact List.mem_cons_self _ _

lemma runStep_some {col : AntColony} {s s2 : RunState} {us : List ℚ}
    (h : runStep col s us = some s2) :
    ∃ path, calculatePath col.number_of_nodes s.pheromone us = some path ∧
      s2.results = s.results ++
        [calculatePathFitness col.distance_matrix col.flow_matrix path] ∧
      s2.best = updateBest s.best
        (calculatePathFitness col.distance_matrix col.flow_matrix path) path := by
  unfold runStep at h
  by_cases hn : s.antNumber < col.number_of_ants
  swap
  · rw [if_neg hn] at h
    cases h
  rw [if_pos hn] at h
  cases hc : calculatePath col.number_of_nodes s.pheromone us with
  | none =>
    rw [hc, Option.none_bind] at h
    cases h
  | some path =>
    rw [hc, Option.some_bind] at h
    refine ⟨path, rfl, ?_⟩
    split at h
    · obtain ⟨ph2, hph2, hs2⟩ := Option.map_eq_some'.mp h
      rw [← hs2]
      exact ⟨rfl, rfl⟩
    · rw [← Option.some.inj h]
      exact ⟨rfl, rfl⟩

lemma runInv_init (col : AntColony) : RunInv col (initRunState col) :=
  ⟨fun _ => rfl, fun h => absurd rfl h, fun _ _ h => by cases h⟩

lemma runInv_step {col : AntColony} {s s2 : RunState} {us : List ℚ}
    (hinv : RunInv col s) (h : runStep col s us = some s2) :
    RunInv col s2 ∧ s2.results.length = s.results.length + 1 ∧
    (∀ f p, s.best = some (f, p) →
      ∃ f2 p2, s2.best = some (f2, p2) ∧ f2 ≤ f) := by
  obtain ⟨path, hc, hres, hbest⟩ := runStep_some h
  obtain ⟨inv1, inv2, inv3⟩ := hinv
  cases hb : s.best with
  | none =>
    have hre : s.results = [] := inv1 hb
    have hs2 : s2.best =
        some (calculatePathFitness col.distance_matrix col.flow_matrix path,
          path) := by
      rw [hbest, hb]
      rfl
    refine ⟨⟨?_, ?_, ?_⟩, by rw [hres]; simp, ?_⟩
    · intro h'
      rw [hs2] at h'
      cases h'
    · intro _
      rw [hs2]
      intro h'
      cases h'
    · intro f p hfp
      have heq := Option.some.inj (hs2.symm.trans hfp)
      have hf : calculatePathFitness col.distance_matrix col.flow_matrix path
          = f := congrArg Prod.fst heq
      have hp : path = p := congrArg Prod.snd heq
      subst hf
      subst hp
      rw [hres, hre]
      refine ⟨by simp, ?_, rfl⟩
      intro g hg
      rw [List.nil_append, List.mem_singleton] at hg
      subst hg
      exact le_refl _
    · intro f p hfp
      exact Option.noConfusion hfp
  | some pair =>
    obtain ⟨bf, bp⟩ := pair
    obtain ⟨m1, m2, m3⟩ := inv3 bf bp hb
    by_cases hlt :
        calculatePathFitness col.distance_matrix col.flow_matrix path < bf
    · have hs2 : s2.best =
          some (calculatePathFitness col.distance_matrix col.flow_matrix path,
            path) := by
        rw [hbest, hb]
        simp only [updateBest]
        rw [if_pos hlt]
      refine ⟨⟨?_, ?_, ?_⟩, by rw [hres]; simp, ?_⟩
      · intro h'
        rw [hs2] at h'
        cases h'
      · intro _
        rw [hs2]
        intro h'
        cases h'
      · intro f p hfp
        have heq := Option.some.inj (hs2.symm.trans hfp)
        have hf : calculatePathFitness col.distance_matrix col.flow_matrix path
            = f := congrArg Prod.fst heq
        have hp : path = p := congrArg Prod.snd heq
        subst hf
        subst hp
        rw [hres]
        refine ⟨List.mem_append.mpr (Or.inr (List.mem_singleton.mpr rfl)),
          ?_, rfl⟩
        intro g hg
        rcases List.mem_append.mp hg with h' | h'
        · exact le_of_lt (lt_of_lt_of_le hlt (m2 g h'))
        · rw [List.mem_singleton] at h'
          subst h'
          exact le_refl _
      · intro f p hfp
        have heq := Option.some.inj hfp
        have hf : bf = f := congrArg Prod.fst heq
        subst hf
        exact ⟨_, _, hs2, le_of_lt hlt⟩
    · have hs2 : s2.best = some (bf, bp) := by
        rw [hbest, hb]
        simp only [updateBest]
        rw [if_neg hlt]
      refine ⟨⟨?_, ?_, ?_⟩, by rw [hres]; simp, ?_⟩
      · intro h'
        rw [hs2] at h'
        cases h'
      · intro _
        rw [hs2]
        intro h'
        cases h'
      · intro f p hfp
        have heq := Option.some.inj (hs2.symm.trans hfp)
        have hf : bf = f := congrArg Prod.fst heq
        have hp : bp = p := congrArg Prod.snd heq
        subst hf
        subst hp
        rw [hres]
        refine ⟨List.mem_append.mpr (Or.inl m1), ?_, m3⟩
        intro g hg
        rcases List.mem_append.mp hg with h' | h'
        · exact m2 g h'
        · rw [List.mem_singleton] at h'
          subst h'
          exact not_lt.mp hlt
      · intro f p hfp
        have heq := Option.some.inj hfp
        have hf : bf = f := congrArg Prod.fst heq
        subst hf
        exact ⟨bf, bp, hs2, le_refl _⟩

lemma runSteps_nil (col : AntColony) (s : RunState) :
    runSteps col s [] = some s := rfl

lemma runSteps_cons (col : AntColony) (s : RunState) (us : List ℚ)
    (rest : List (List ℚ)) :
    runSteps col s (us :: rest) =
      (runStep col s us).bind (fun s2 => runSteps col s2 rest) := rfl

lemma runSteps_append (col : AntColony) (xs ys : List (List ℚ)) :
    ∀ s, runSteps col s (xs ++ ys) =
      (runSteps col s xs).bind (fun s2 => runSteps col s2 ys) := by
  induction xs with
  | nil =>
    intro s
    rw [List.nil_append, runSteps_nil, Option.some_bind]
  | cons x t ih =>
    intro s
    rw [List.cons_append, runSteps_cons, runSteps_cons]
    cases hx : runStep col s x with
    | none => simp
    | some s2 => rw [Option.some_bind, Option.some_bind, ih s2]

lemma runSteps_inv {col : AntColony} :
    ∀ (uss : List (List ℚ)) (s s' : RunState),
    RunInv col s → runSteps col s uss = some s' →
    RunInv col s' ∧ s'.results.length = s.results.length + uss.length ∧
    (∀ f p, s.best = some (f, p) →
      ∃ f2 p2, s'.best = some (f2, p2) ∧ f2 ≤ f) := by
  intro uss
  induction uss with
  | nil =>
    intro s s' hinv h
    obtain rfl : s = s' := Option.some.inj h
    exact ⟨hinv, by simp, fun f p hb => ⟨f, p, hb, le_refl f⟩⟩
  | cons us rest ih =>
    intro s s' hinv h
    rw [runSteps_cons] at h
    cases hx : runStep col s us with
    | none =>
      rw [hx, Option.none_bind] at h
      cases h
    | some s2 =>
      rw [hx, Option.some_bind] at h
      obtain ⟨hinv2, hlen2, hmono2⟩ := runInv_step hinv hx
      obtain ⟨hinv', hlen', hmono'⟩ := ih s2 s' hinv2 h
      refine ⟨hinv', by rw [hlen', hlen2, List.length_cons]; omega, ?_⟩
      intro f p hb
      obtain ⟨f2, p2, hb2, hle2⟩ := hmono2 f p hb
      obtain ⟨f3, p3, hb3, hle3⟩ := hmono' f2 p2 hb2
      exact ⟨f3, p3, hb3, le_trans hle3 hle2⟩

lemma forward_edge_mem_pathEdges (path : List ℕ) (i : ℕ)
    (hi : i + 1 < path.length) :
    (path.getD i 0, path.getD (i + 1) 0) ∈ pathEdges path := by
  unfold pathEdges
  apply List.mem_cons_of_mem
  exact List.mem_map.mpr ⟨i, List.mem_range.mpr (by omega), rfl⟩

lemma initRunState_c13 :
    initRunState col13 = ⟨[[0, 1], [1, 0]], [[], [], [], [], []], [0, 0, 0, 0, 0], none, [], 0⟩ := rfl

set_option maxHeartbeats 1000000 in
lemma runStep_c13_0 : runStep col13
    ⟨[[0, 1], [1, 0]], [[], [], [], [], []], [0, 0, 0, 0, 0], none, [], 0⟩ [0] =
    some ⟨[[0, 1], [1, 0]], [[1], [], [], [], []], [2, 0, 0, 0, 0], some (2, [1]), [2], 1⟩ := by
  simp only [runStep, col13]
  norm_num [calculatePath, buildSteps, chooseNextNode, initAntState, sampleAux,
    List.zipWith_cons_cons, List.sum_cons, List.replicate_succ,
    List.forall_mem_cons, List.getD_cons_zero, List.getD_cons_succ,
    List.getD_nil, List.set_cons_zero, List.set_cons_succ,
    List.headD_cons, List.tail_cons]
  norm_num [calculatePathFitness, List.range_succ, List.range_zero,
    List.foldl_cons, List.foldl_nil, List.foldl_append, List.length_cons,
    List.length_nil]
  norm_num [updateBest, List.replicate_succ, List.set_cons_zero,
    List.set_cons_succ]

set_option maxHeartbeats 1000000 in
lemma runStep_c13_1 : runStep col13
    ⟨[[0, 1], [1, 0]], [[1], [], [], [], []], [2, 0, 0, 0, 0], some (2, [1]), [2], 1⟩ [0] =
    some ⟨[[0, 1], [1, 0]], [[1], [1], [], [], []], [2, 2, 0, 0, 0], some (2, [1]), [2, 2], 2⟩ := by
  simp only [runStep, col13]
  norm_num [calculatePath, buildSteps, chooseNextNode, initAntState, sampleAux,
    calculatePathFitness, updateBest, depositAll, updatePheromones, depositEdge,
    List.zipWith_cons_cons, List.sum_cons, List.replicate_succ,
    List.forall_mem_cons, List.getD_cons_zero, List.getD_cons_succ,
    List.getD_nil, List.set_cons_zero, List.set_cons_succ,
    List.headD_cons, List.tail_cons, List.range_succ, List.range_zero,
    List.foldl_cons, List.foldl_nil, List.foldl_append, List.length_cons,
    List.length_nil, List.zip_cons_cons]

set_option maxHeartbeats 1000000 in
lemma runStep_c13_2 : runStep col13
    ⟨[[0, 1], [1, 0]], [[1], [1], [], [], []], [2, 2, 0, 0, 0], some (2, [1]), [2, 2], 2⟩ [0] =
    some ⟨[[0, 1], [1, 0]], [[1], [1], [1], [], []], [2, 2, 2, 0, 0], some (2, [1]), [2, 2, 2], 3⟩ := by
  simp only [runStep, col13]
  norm_num [calculatePath, buildSteps, chooseNextNode, initAntState, sampleAux,
    calculatePathFitness, updateBest, depositAll, updatePheromones, depositEdge,
    List.zipWith_cons_cons, List.sum_cons, List.replicate_succ,
    List.forall_mem_cons, List.getD_cons_zero, List.getD_cons_succ,
    List.getD_nil, List.set_cons_zero, List.set_cons_succ,
    List.headD_cons, List.tail_cons, List.range_succ, List.range_zero,
    List.foldl_cons, List.foldl_nil, List.foldl_append, List.length_cons,
    List.length_nil, List.zip_cons_cons]

set_option maxHeartbeats 1000000 in
lemma runStep_c13_3 : runStep col13
    ⟨[[0, 1], [1, 0]], [[1], [1], [1], [], []], [2, 2, 2, 0, 0], some (2, [1]), [2, 2, 2], 3⟩ [0] =
    some ⟨[[0, 1], [1, 0]], [[1], [1], [1], [1], []], [2, 2, 2, 2, 0], some (2, [1]), [2, 2, 2, 2], 4⟩ := by
  simp only [runStep, col13]
  norm_num [calculatePath, buildSteps, chooseNextNode, initAntState, sampleAux,
    calculatePathFitness, updateBest, depositAll, updatePheromones, depositEdge,
    List.zipWith_cons_cons, List.sum_cons, List.replicate_succ,
    List.forall_mem_cons, List.getD_cons_zero, List.getD_cons_succ,
    List.getD_nil, List.set_cons_zero, List.set_cons_succ,
    List.headD_cons, List.tail_cons, List.range_succ, List.range_zero,
    List.foldl_cons, List.foldl_nil, List.foldl_append, List.length_cons,
    List.length_nil, List.zip_cons_cons]

set_option maxHeartbeats 1000000 in
lemma runStep_c13_4 : runStep col13
    ⟨[[0, 1], [1, 0]], [[1], [1], [1], [1], []], [2, 2, 2, 2, 0], some (2, [1]), [2, 2, 2, 2], 4⟩ [0] =
    some ⟨[[0, 7 / 2], [1, 0]], [[1], [1], [1], [1], [1]], [2, 2, 2, 2, 2], some (2, [1]), [2, 2, 2, 2, 2], 1⟩ := by
  simp only [runStep, col13]
  norm_num [calculatePath, buildSteps, chooseNextNode, initAntState, sampleAux,
    calculatePathFitness, updateBest, depositAll, updatePheromones, depositEdge,
    List.zipWith_cons_cons, List.sum_cons, List.replicate_succ,
    List.forall_mem_cons, List.getD_cons_zero, List.getD_cons_succ,
    List.getD_nil, List.set_cons_zero, List.set_cons_succ,
    List.headD_cons, List.tail_cons, List.range_succ, List.range_zero,
    List.foldl_cons, List.foldl_nil, List.foldl_append, List.length_cons,
    List.length_nil, List.zip_cons_cons]

set_option maxHeartbeats 1000000 in
lemma runStep_c13_5 : runStep col13
    ⟨[[0, 7 / 2], [1, 0]], [[1], [1], [1], [1], [1]], [2, 2, 2, 2, 2], some (2, [1]), [2, 2, 2, 2, 2], 1⟩ [0] =
    some ⟨[[0, 7 / 2], [1, 0]], [[1], [1], [1], [1], [1]], [2, 2, 2, 2, 2], some (2, [1]), [2, 2, 2, 2, 2, 2], 2⟩ := by
  simp only [runStep, col13]
  norm_num [calculatePath, buildSteps, chooseNextNode, initAntState, sampleAux,
    calculatePathFitness, updateBest, depositAll, updatePheromones, depositEdge,
    List.zipWith_cons_cons, List.sum_cons, List.replicate_succ,
    List.forall_mem_cons, List.getD_cons_zero, List.getD_cons_succ,
    List.getD_nil, List.set_cons_zero, List.set_cons_succ,
    List.headD_cons, List.tail_cons, List.range_succ, List.range_zero,
    List.foldl_cons, List.foldl_nil, List.foldl_append, List.length_cons,
    List.length_nil, List.zip_cons_cons]

set_option maxHeartbeats 1000000 in
lemma runStep_c13_6 : runStep col13
    ⟨[[0, 7 / 2], [1, 0]], [[1], [1], [1], [1], [1]], [2, 2, 2, 2, 2], some (2, [1]), [2, 2, 2, 2, 2, 2], 2⟩ [0] =
    some ⟨[[0, 7 / 2], [1, 0]], [[1], [1], [1], [1], [1]], [2, 2, 2, 2, 2], some (2, [1]), [2, 2, 2, 2, 2, 2, 2], 3⟩ := by
  simp only [runStep, col13]
  norm_num [calculatePath, buildSteps, chooseNextNode, initAntState, sampleAux,
    calculatePathFitness, updateBest, depositAll, updatePheromones, depositEdge,
    List.zipWith_cons_cons, List.sum_cons, List.replicate_succ,
    List.forall_mem_cons, List.getD_cons_zero, List.getD_cons_succ,
    List.getD_nil, List.set_cons_zero, List.set_cons_succ,
    List.headD_cons, List.tail_cons, List.range_succ, List.range_zero,
    List.foldl_cons, List.foldl_nil, List.foldl_append, List.length_cons,
    List.length_nil, List.zip_cons_cons]

set_option maxHeartbeats 1000000 in
lemma runStep_c13_7 : runStep col13
    ⟨[[0, 7 / 2], [1, 0]], [[1], [1], [1], [1], [1]], [2, 2, 2, 2, 2], some (2, [1]), [2, 2, 2, 2, 2, 2, 2], 3⟩ [0] =
    some ⟨[[0, 7 / 2], [1, 0]], [[1], [1], [1], [1], [1]], [2, 2, 2, 2, 2], some (2, [1]), [2, 2, 2, 2, 2, 2, 2, 2], 4⟩ := by
  simp only [runStep, col13]
  norm_num [calculatePath, buildSteps, chooseNextNode, initAntState, sampleAux,
    calculatePathFitness, updateBest, depositAll, updatePheromones, depositEdge,
    List.zipWith_cons_cons, List.sum_cons, List.replicate_succ,
    List.forall_mem_cons, List.getD_cons_zero, List.getD_cons_succ,
    List.getD_nil, List.set_cons_zero, List.set_cons_succ,
    List.headD_cons, List.tail_cons, List.range_succ, List.range_zero,
    List.foldl_cons, List.foldl_nil, List.foldl_append, List.length_cons,
    List.length_nil, List.zip_cons_cons]

set_option maxHeartbeats 1000000 in
lemma runStep_c13_8 : runStep col13
    ⟨[[0, 7 / 2], [1, 0]], [[1], [1], [1], [1], [1]], [2, 2, 2, 2, 2], some (2, [1]), [2, 2, 2, 2, 2, 2, 2, 2], 4⟩ [0] =
    some ⟨[[0, 6], [1, 0]], [[1], [1], [1], [1], [1]], [2, 2, 2, 2, 2], some (2, [1]), [2, 2, 2, 2, 2, 2, 2, 2, 2], 1⟩ := by
  simp only [runStep, col13]
  norm_num [calculatePath, buildSteps, chooseNextNode, initAntState, sampleAux,
    calculatePathFitness, updateBest, depositAll, updatePheromones, depositEdge,
    List.zipWith_cons_cons, List.sum_cons, List.replicate_succ,
    List.forall_mem_cons, List.getD_cons_zero, List.getD_cons_succ,
    List.getD_nil, List.set_cons_zero, List.set_cons_succ,
    List.headD_cons, List.tail_cons, List.range_succ, List.range_zero,
    List.foldl_cons, List.foldl_nil, List.foldl_append, List.length_cons,
    List.length_nil, List.zip_cons_cons]

set_option maxHeartbeats 1000000 in
lemma runStep_c13_9 : runStep col13
    ⟨[[0, 6], [1, 0]], [[1], [1], [1], [1], [1]], [2, 2, 2, 2, 2], some (2, [1]), [2, 2, 2, 2, 2, 2, 2, 2, 2], 1⟩ [0] =
    some ⟨[[0, 6], [1, 0]], [[1], [1], [1], [1], [1]], [2, 2, 2, 2, 2], some (2, [1]), [2, 2, 2, 2, 2, 2, 2, 2, 2, 2], 2⟩ := by
  simp only [runStep, col13]
  norm_num [calculatePath, buildSteps, chooseNextNode, initAntState, sampleAux,
    calculatePathFitness, updateBest, depositAll, updatePheromones, depositEdge,
    List.zipWith_cons_cons, List.sum_cons, List.replicate_succ,
    List.forall_mem_cons, List.getD_cons_zero, List.getD_cons_succ,
    List.getD_nil, List.set_cons_zero, List.set_cons_succ,
    List.headD_cons, List.tail_cons, List.range_succ, List.range_zero,
    List.foldl_cons, List.foldl_nil, List.foldl_append, List.length_cons,
    List.length_nil, List.zip_cons_cons]

set_option maxHeartbeats 1000000 in
lemma runStep_c13_10 : runStep col13
    ⟨[[0, 6], [1, 0]], [[1], [1], [1], [1], [1]], [2, 2, 2, 2, 2], some (2, [1]), [2, 2, 2, 2, 2, 2, 2, 2, 2, 2], 2⟩ [0] =
    some ⟨[[0, 6], [1, 0]], [[1], [1], [1], [1], [1]], [2, 2, 2, 2, 2], some (2, [1]), [2, 2, 2, 2, 2, 2, 2, 2, 2, 2, 2], 3⟩ := by
  simp only [runStep, col13]
  norm_num [calculatePath, buildSteps, chooseNextNode, initAntState, sampleAux,
    calculatePathFitness, updateBest, depositAll, updatePheromones, depositEdge,
    List.zipWith_cons_cons, List.sum_cons, List.replicate_succ,
    List.forall_mem_cons, List.getD_cons_zero, List.getD_cons_succ,
    List.getD_nil, List.set_cons_zero, List.set_cons_succ,
    List.headD_cons, List.tail_cons, List.range_succ, List.range_zero,
    List.foldl_cons, List.foldl_nil, List.foldl_append, List.length_cons,
    List.length_nil, List.zip_cons_cons]

set_option maxHeartbeats 1000000 in
lemma runStep_c13_11 : runStep col13
    ⟨[[0, 6], [1, 0]], [[1], [1], [1], [1], [1]], [2, 2, 2, 2, 2], some (2, [1]), [2, 2, 2, 2, 2, 2, 2, 2, 2, 2, 2], 3⟩ [0] =
    some ⟨[[0, 6], [1, 0]], [[1], [1], [1], [1], [1]], [2, 2, 2, 2, 2], some (2, [1]), [2, 2, 2, 2, 2, 2, 2, 2, 2, 2, 2, 2], 4⟩ := by
  simp only [runStep, col13]
  norm_num [calculatePath, buildSteps, chooseNextNode, initAntState, sampleAux,
    calculatePathFitness, updateBest, depositAll, updatePheromones, depositEdge,
    List.zipWith_cons_cons, List.sum_cons, List.replicate_succ,
    List.forall_mem_cons, List.getD_cons_zero, List.getD_cons_succ,
    List.getD_nil, List.set_cons_zero, List.set_cons_succ,
    List.headD_cons, List.tail_cons, List.range_succ, List.range_zero,
    List.foldl_cons, List.foldl_nil, List.foldl_append, List.length_cons,
    List.length_nil, List.zip_cons_cons]

set_option maxHeartbeats 1000000 in
lemma runStep_c13_12 : runStep col13
    ⟨[[0, 6], [1, 0]], [[1], [1], [1], [1], [1]], [2, 2, 2, 2, 2], some (2, [1]), [2, 2, 2, 2, 2, 2, 2, 2, 2, 2, 2, 2], 4⟩ [0] =
    some ⟨[[0, 17 / 2], [1, 0]], [[1], [1], [1], [1], [1]], [2, 2, 2, 2, 2], some (2, [1]), [2, 2, 2, 2, 2, 2, 2, 2, 2, 2, 2, 2, 2], 1⟩ := by
  simp only [runStep, col13]
  norm_num [calculatePath, buildSteps, chooseNextNode, initAntState, sampleAux,
    calculatePathFitness, updateBest, depositAll, updatePheromones, depositEdge,
    List.zipWith_cons_cons, List.sum_cons, List.replicate_succ,
    List.forall_mem_cons, List.getD_cons_zero, List.getD_cons_succ,
    List.getD_nil, List.set_cons_zero, List.set_cons_succ,
    List.headD_cons, List.tail_cons, List.range_succ, List.range_zero,
    List.foldl_cons, List.foldl_nil, List.foldl_append, List.length_cons,
    List.length_nil, List.zip_cons_cons]


lemma getD_map_nested (g : List ℚ → List ℚ) (hg : g [] = [])
    (ph : List (List ℚ)) (i : ℕ) :
    (ph.map g).getD i [] = g (ph.getD i []) := by
  induction ph generalizing i with
  | nil => simp [hg]
  | cons a t ih =>
    cases i with
    | zero => rfl
    | succ n =>
      rw [List.map_cons, List.getD_cons_succ, List.getD_cons_succ]
      exact ih n

lemma getD_map_mul (f : ℚ → ℚ) (hf : f 0 = 0) (l : List ℚ) (j : ℕ) :
    (l.map f).getD j 0 = f (l.getD j 0) := by
  induction l generalizing j with
  | nil => simp [hf]
  | cons a t ih =>
    cases j with
    | zero => rfl
    | succ n =>
      rw [List.map_cons, List.getD_cons_succ, List.getD_cons_succ]
      exact ih n

lemma runStep_rate (m : ℕ) (e e2 : ℚ) (N : ℕ) (D F : List (List ℤ))
    (ph : List (List ℚ)) (s : RunState) (us : List ℚ) :
    runStep ⟨m, e, N, D, F, ph⟩ s us = runStep ⟨m, e2, N, D, F, ph⟩ s us := rfl

lemma runSteps_rate (m : ℕ) (e e2 : ℚ) (N : ℕ) (D F : List (List ℤ))
    (ph : List (List ℚ)) :
    ∀ (uss : List (List ℚ)) (s : RunState),
    runSteps ⟨m, e, N, D, F, ph⟩ s uss = runSteps ⟨m, e2, N, D, F, ph⟩ s uss := by
  intro uss
  induction uss with
  | nil => intro s; rfl
  | cons us rest ih =>
    intro s
    rw [runSteps_cons, runSteps_cons, runStep_rate m e e2 N D F ph s us]
    cases runStep ⟨m, e2, N, D, F, ph⟩ s us with
    | none => rw [Option.none_bind, Option.none_bind]
    | some s2 => rw [Option.some_bind, Option.some_bind, ih s2]

/-! ### Claim theorems -/

/-- C1: the claim says that with `antCount = 5` and `fitnessEvaluations = 13`
exactly 2 reinforcement/evaporation cycles occur, after steps 5 and 10, each
evaporating the whole store exactly once.  The code disagrees twice.  (a) In
`run`, `ant_number` is reset to `0` at a batch boundary and then incremented,
so after the first batch ant 0 is never used again and deposits happen after
steps 5, 9 and 13 — three reinforcement cycles, with ant 0's stale first path
re-deposited each time.  (b) Line 46 reads `self.evaporatePheromones` without
calling it, so evaporation never runs.  On `col13` (N = 1, m = 5,
D = [[2]], F = [[1]], e = 1/2, initial pheromone entry (0,1) = 1) every path
is [1] with fitness 2 and deposit 1/2, so the final entry (0,1) is
1 + 3·5·(1/2) = 17/2, whereas the claimed schedule (deposits after steps 5
and 10 only, each followed by one evaporation by 1/2) would give
((1 + 5/2)·(1/2) + 5/2)·(1/2) = 17/8.  The second conjunct shows the whole
run result is independent of the evaporation rate, so evaporation is never
applied at any rate. -/
theorem run_batch_schedule_diverges :
    AntColony.run col13
        [[0], [0], [0], [0], [0], [0], [0], [0], [0], [0], [0], [0], [0]] =
      some ⟨[[0, 17 / 2], [1, 0]], [[1], [1], [1], [1], [1]],
        [2, 2, 2, 2, 2], some (2, [1]),
        [2, 2, 2, 2, 2, 2, 2, 2, 2, 2, 2, 2, 2], 1⟩ ∧
    (∀ (e : ℚ) (uss : List (List ℚ)),
      AntColony.run ⟨5, e, 1, [[2]], [[1]], [[0, 1], [1, 0]]⟩ uss =
        AntColony.run col13 uss) := by
  constructor
  · show runSteps col13 (initRunState col13) _ = _
    rw [initRunState_c13,
      runSteps_cons, runStep_c13_0, Option.some_bind,
      runSteps_cons, runStep_c13_1, Option.some_bind,
      runSteps_cons, runStep_c13_2, Option.some_bind,
      runSteps_cons, runStep_c13_3, Option.some_bind,
      runSteps_cons, runStep_c13_4, Option.some_bind,
      runSteps_cons, runStep_c13_5, Option.some_bind,
      runSteps_cons, runStep_c13_6, Option.some_bind,
      runSteps_cons, runStep_c13_7, Option.some_bind,
      runSteps_cons, runStep_c13_8, Option.some_bind,
      runSteps_cons, runStep_c13_9, Option.some_bind,
      runSteps_cons, runStep_c13_10, Option.some_bind,
      runSteps_cons, runStep_c13_11, Option.some_bind,
      runSteps_cons, runStep_c13_12, Option.some_bind,
      runSteps_nil]
  · intro e uss
    show runSteps _ (initRunState _) uss = runSteps _ (initRunState _) uss
    have h1 : initRunState ⟨5, e, 1, [[2]], [[1]], [[0, 1], [1, 0]]⟩ =
        initRunState col13 := rfl
    rw [h1]
    exact runSteps_rate 5 e (1 / 2) 1 [[2]] [[1]] [[0, 1], [1, 0]] uss
      (initRunState col13)

/-- C2 (counterexample): the claim says that a zero candidate-weight sum
triggers a uniform fallback so that path construction completes normally.
On the all-zero store `zeroPh3` the very first selection step has weight
vector `[0, 0, 0]` with sum `0`, and `calculatePath` fails (`none`, the
modelled `np.random.choice` ValueError on NaN probabilities) instead of
returning a path — there is no fallback in the code. -/
theorem calculatePath_zero_sum_fails :
    calculatePath 2 zeroPh3 [0, 0] = none := by
  norm_num [calculatePath, buildSteps, chooseNextNode, initAntState, zeroPh3,
    sampleAux, List.zipWith_cons_cons, List.sum_cons, List.replicate_succ,
    List.forall_mem_cons, List.getD_cons_zero, List.getD_cons_succ,
    List.getD_nil, List.set_cons_zero, List.set_cons_succ,
    List.headD_cons, List.tail_cons]

/-- C2 (amended): when the sum of the candidate weight vector at a step is
zero, `chooseNextNode` divides by zero (NaN probabilities) and the
`np.random.choice` call raises, so node selection fails; no uniform fallback
exists in `main.py`. -/
theorem chooseNextNode_zero_sum_raises (N : ℕ) (ph : List (List ℚ))
    (st : AntState) (u : ℚ)
    (h : (List.zipWith (fun p a => p * a) (ph.getD st.current_node [])
        st.allowed_nodes).sum = 0) :
    chooseNextNode N ph st u = none := by
  simp only [chooseNextNode]
  rw [if_pos h]

/-- Witness for the amended C2 theorem at the all-zero store. -/
theorem chooseNextNode_zero_sum_raises_witness :
    (List.zipWith (fun p a => p * a)
        (zeroPh3.getD (initAntState 2).current_node [])
        (initAntState 2).allowed_nodes).sum = 0 ∧
    chooseNextNode 2 zeroPh3 (initAntState 2) 0 = none :=
  ⟨by norm_num [zeroPh3, initAntState, List.zipWith_cons_cons, List.sum_cons,
      List.replicate_succ, List.getD_cons_zero],
    chooseNextNode_zero_sum_raises 2 zeroPh3 (initAntState 2) 0
      (by norm_num [zeroPh3, initAntState, List.zipWith_cons_cons,
        List.sum_cons, List.replicate_succ, List.getD_cons_zero])⟩

/-- C3: whenever `Ant.calculatePath` completes (it completes exactly when no
selection step fails, i.e. when every step's candidate weight vector is
accepted by `np.random.choice`, which given nonnegative weights means a
positive sum), the returned path is a permutation of {1, …, N}: length `N`,
no duplicates, every entry in `1..N`, and the pseudo-start node `0` never
appears.  The uniform draws are required to lie in `[0, 1)` as
`np.random.random` guarantees. -/
theorem calculatePath_permutation (N : ℕ) (ph : List (List ℚ))
    (us : List ℚ) (p : List ℕ)
    (hu : ∀ u ∈ us, 0 ≤ u ∧ u < 1)
    (h : calculatePath N ph us = some p) :
    p.length = N ∧ p.Nodup ∧ (∀ x ∈ p, 1 ≤ x ∧ x ≤ N) ∧ 0 ∉ p := by
  unfold calculatePath at h
  cases hb : buildSteps N ph N (initAntState N) us with
  | none =>
    rw [hb] at h
    cases h
  | some st2 =>
    rw [hb] at h
    have hp : p = st2.path := (Option.some.inj h).symm
    obtain ⟨hinv, hlen⟩ :=
      buildSteps_inv N (initAntState N) us st2 hu (antInv_init N) hb
    obtain ⟨-, -, -, hnd, hrange⟩ := hinv
    subst hp
    have hl : st2.path.length = N := by
      rw [hlen]
      simp [initAntState]
    refine ⟨hl, hnd, hrange, ?_⟩
    intro h0
    have := hrange 0 h0
    omega

/-- Witness for C3 on the concrete store `ph3` (N = 2): the construction
returns the permutation `[1, 2]`. -/
theorem calculatePath_permutation_witness :
    ([1, 2] : List ℕ).length = 2 ∧ ([1, 2] : List ℕ).Nodup ∧
      (∀ x ∈ ([1, 2] : List ℕ), 1 ≤ x ∧ x ≤ 2) ∧ 0 ∉ ([1, 2] : List ℕ) :=
  calculatePath_permutation 2 ph3 [0, 1 / 2] [1, 2]
    (by norm_num [List.forall_mem_cons])
    (by norm_num [calculatePath, buildSteps, chooseNextNode, initAntState,
      ph3, sampleAux, List.zipWith_cons_cons, List.sum_cons,
      List.replicate_succ, List.forall_mem_cons, List.getD_cons_zero,
      List.getD_cons_succ, List.getD_nil, List.set_cons_zero,
      List.set_cons_succ, List.headD_cons, List.tail_cons])

/-- C4: `Ant.calculatePathFitness` returns exactly the double sum
Σ_i Σ_j D[i][j] · F[path[i]-1][path[j]-1] over `0 ≤ i, j < path.length`.
It is a pure function of `(path, D, F)` by construction of the embedding (a
Lean function of exactly those arguments), so repeated calls yield the
identical value. -/
theorem calculatePathFitness_eq_sum (D F : List (List ℤ)) (path : List ℕ) :
    calculatePathFitness D F path =
      ∑ i ∈ Finset.range path.length, ∑ j ∈ Finset.range path.length,
        (D.getD i []).getD j 0 *
          (F.getD (path.getD i 0 - 1) []).getD (path.getD j 0 - 1) 0 := by
  unfold calculatePathFitness
  simp only [foldl_add_eq, sum_map_range_int, zero_add]

/-- C5 (counterexample): the claim says both directions of each
consecutive-pair edge receive the same deposit.  On the all-zero 3×3 store
with path `[1, 2]` and fitness `1`, the claim demands that the reverse entry
`(2, 1)` receive the deposit `1/1`; in fact it stays `0`. -/
theorem updatePheromones_not_symmetric :
    ¬ (entry (updatePheromones zeroPh3 [1, 2] 1) 2 1 =
        entry zeroPh3 2 1 + 1 / 1) := by
  norm_num [updatePheromones, depositEdge, entry, zeroPh3, List.range_succ,
    List.range_zero, List.foldl_cons, List.foldl_nil, List.foldl_append,
    List.getD_cons_zero, List.getD_cons_succ, List.getD_nil,
    List.set_cons_zero, List.set_cons_succ, List.length_cons,
    List.length_nil]

/-- C5 (amended): `Ant.updatePheromones` treats edges as directed: the
pseudo-start entry `(0, path[0])` and each forward entry
`(path[i], path[i+1])` receive the deposit `1/fitness`, while each
reverse entry `(path[i+1], path[i])` is left unchanged. -/
theorem updatePheromones_forward_only (N : ℕ) (ph : List (List ℚ))
    (path : List ℕ) (f : ℚ) (hf : 0 < f) (hN : 0 < N)
    (hlen : path.length = N) (hnd : path.Nodup)
    (hrange : ∀ x ∈ path, 1 ≤ x ∧ x ≤ N)
    (hphl : ph.length = N + 1)
    (hrow : ∀ k, k < N + 1 → (ph.getD k []).length = N + 1) :
    entry (updatePheromones ph path f) 0 (path.getD 0 0) =
      entry ph 0 (path.getD 0 0) + 1 / f ∧
    ∀ i, i + 1 < path.length →
      entry (updatePheromones ph path f) (path.getD i 0)
          (path.getD (i + 1) 0) =
        entry ph (path.getD i 0) (path.getD (i + 1) 0) + 1 / f ∧
      entry (updatePheromones ph path f) (path.getD (i + 1) 0)
          (path.getD i 0) =
        entry ph (path.getD (i + 1) 0) (path.getD i 0) := by
  have hposx : ∀ x ∈ path, 1 ≤ x := fun x hx => (hrange x hx).1
  have hb : ∀ e ∈ pathEdges path,
      e.1 < ph.length ∧ e.2 < (ph.getD e.1 []).length := by
    intro e he
    obtain ⟨h1, h2⟩ := pathEdges_bounds N path hlen hN hrange e he
    refine ⟨by rw [hphl]; exact h1, by rw [hrow e.1 h1]; exact h2⟩
  have hnd2 := pathEdges_nodup path hnd hposx
  have hupd : ∀ k l, entry (updatePheromones ph path f) k l =
      if (k, l) ∈ pathEdges path then entry ph k l + 1 / f
      else entry ph k l := by
    intro k l
    rw [updatePheromones_eq_depositList]
    exact entry_depositList ph (pathEdges path) (1 / f) hnd2 hb k l
  constructor
  · rw [hupd, if_pos (start_edge_mem_pathEdges path)]
  · intro i hi
    constructor
    · rw [hupd, if_pos (forward_edge_mem_pathEdges path i hi)]
    · rw [hupd, if_neg (reverse_not_mem_pathEdges path hnd hposx i hi)]

/-- Witness for the amended C5 theorem on `ph3` with path `[1, 2]` and
fitness `2`. -/
theorem updatePheromones_forward_only_witness :
    (entry (updatePheromones ph3 [1, 2] 2) 0 (([1, 2] : List ℕ).getD 0 0) =
      entry ph3 0 (([1, 2] : List ℕ).getD 0 0) + 1 / 2) ∧
    ∀ i, i + 1 < ([1, 2] : List ℕ).length →
      entry (updatePheromones ph3 [1, 2] 2) (([1, 2] : List ℕ).getD i 0)
          (([1, 2] : List ℕ).getD (i + 1) 0) =
        entry ph3 (([1, 2] : List ℕ).getD i 0)
          (([1, 2] : List ℕ).getD (i + 1) 0) + 1 / 2 ∧
      entry (updatePheromones ph3 [1, 2] 2) (([1, 2] : List ℕ).getD (i + 1) 0)
          (([1, 2] : List ℕ).getD i 0) =
        entry ph3 (([1, 2] : List ℕ).getD (i + 1) 0)
          (([1, 2] : List ℕ).getD i 0) :=
  updatePheromones_forward_only 2 ph3 [1, 2] 2 (by norm_num) (by norm_num)
    (by norm_num) (by norm_num) (by norm_num [List.forall_mem_cons])
    (by norm_num [ph3])
    (by
      intro k hk
      interval_cases k <;> norm_num [ph3])

/-- C6 (counterexample): the claim says construction raises a validation
error whenever `antCount ≤ 0` (among other conditions).  `AntColony.__init__`
performs no checks at all: constructing a colony with `antCount = 0` and
`N = 0` succeeds and simply stores the invalid arguments. -/
theorem init_accepts_invalid_arguments :
    (AntColony.init 0 (1 / 2) 0 [] [] (fun _ _ => 0)).number_of_ants = 0 ∧
    AntColony.init 0 (1 / 2) 0 [] [] (fun _ _ => 0) =
      ⟨0, 1 / 2, 0, [], [], [[0]]⟩ := by
  constructor
  · rfl
  · norm_num [AntColony.init, List.range_succ, List.range_zero]

/-- C6 (amended): `AntColony.__init__` validates nothing: it stores every
argument exactly as given (whether or not `antCount`, `N`, the rate or the
matrices satisfy the documented constraints) and initialises an
`(N+1)×(N+1)` pheromone matrix whose diagonal entries are `0`. -/
theorem init_no_validation (m : ℕ) (e : ℚ) (N : ℕ)
    (D F : List (List ℤ)) (rng : ℕ → ℕ → ℚ) :
    (AntColony.init m e N D F rng).number_of_ants = m ∧
    (AntColony.init m e N D F rng).evaporation_rate = e ∧
    (AntColony.init m e N D F rng).number_of_nodes = N ∧
    (AntColony.init m e N D F rng).distance_matrix = D ∧
    (AntColony.init m e N D F rng).flow_matrix = F ∧
    (AntColony.init m e N D F rng).pheromone_matrix.length = N + 1 ∧
    (∀ i, ((AntColony.init m e N D F rng).pheromone_matrix.getD i []).length
        = if i < N + 1 then N + 1 else 0) ∧
    (∀ i, entry (AntColony.init m e N D F rng).pheromone_matrix i i = 0) := by
  refine ⟨rfl, rfl, rfl, rfl, rfl, ?_, ?_, ?_⟩
  · show ((List.range (N + 1)).map _).length = N + 1
    rw [List.length_map, List.length_range]
  · intro i
    show (((List.range (N + 1)).map (fun a => (List.range (N + 1)).map
      (fun b => if a ≠ b then rng a b else 0))).getD i []).length = _
    rw [getD_map_range]
    by_cases h : i < N + 1
    · rw [if_pos h, if_pos h, List.length_map, List.length_range]
    · rw [if_neg h, if_neg h]
      rfl
  · intro i
    show entry ((List.range (N + 1)).map (fun a => (List.range (N + 1)).map
      (fun b => if a ≠ b then rng a b else 0))) i i = 0
    unfold entry
    rw [getD_map_range]
    by_cases h : i < N + 1
    · rw [if_pos h, getD_map_range, if_pos h,
        if_neg (show ¬ i ≠ i from fun hh => hh rfl)]
    · rw [if_neg h]
      rfl

/-- C7: one call to `evaporatePheromones` multiplies every entry of the
store by the evaporation rate and does nothing else: the matrix keeps its
row count and every row its length (no entry added or removed), and every
entry equals its prior value times the rate exactly (no clamping to a
floor). -/
theorem evaporatePheromones_spec (ph : List (List ℚ)) (e : ℚ) :
    (evaporatePheromones ph e).length = ph.length ∧
    (∀ i, ((evaporatePheromones ph e).getD i []).length =
      (ph.getD i []).length) ∧
    (∀ i j, entry (evaporatePheromones ph e) i j = entry ph i j * e) := by
  refine ⟨by simp [evaporatePheromones], ?_, ?_⟩
  · intro i
    unfold evaporatePheromones
    rw [getD_map_nested (List.map fun x => x * e) (by simp) ph i,
      List.length_map]
  · intro i j
    unfold entry evaporatePheromones
    rw [getD_map_nested (List.map fun x => x * e) (by simp) ph i,
      getD_map_mul (fun x => x * e) (by simp) (ph.getD i []) j]

/-- C8: whenever `run` completes on `fitnessEvaluations = uss.length ≥ 1`
steps, the produced record's `results` (fitnessSequence) has exactly one
entry per step; its best pair `(f, p)` satisfies: `f` is a minimum of the
fitness sequence and `p` is a path whose fitness is `f`; and running the
same colony (same draws) for more steps never yields a worse best
(monotone non-increase of `bestFitness`). -/
theorem run_record_spec (col : AntColony) (uss rest : List (List ℚ))
    (rec rec2 : RunState)
    (h1 : AntColony.run col uss = some rec)
    (h2 : AntColony.run col (uss ++ rest) = some rec2)
    (hne : uss ≠ []) :
    rec.results.length = uss.length ∧
    (∃ f p, rec.best = some (f, p) ∧ f ∈ rec.results ∧
      (∀ g ∈ rec.results, f ≤ g) ∧
      calculatePathFitness col.distance_matrix col.flow_matrix p = f) ∧
    (∀ f p f2 p2, rec.best = some (f, p) → rec2.best = some (f2, p2) →
      f2 ≤ f) := by
  unfold AntColony.run at h1 h2
  obtain ⟨hinv, hlen, -⟩ :=
    runSteps_inv uss (initRunState col) rec (runInv_init col) h1
  have hlen2 : rec.results.length = uss.length := by
    rw [hlen]
    simp [initRunState]
  refine ⟨hlen2, ?_, ?_⟩
  · have hresne : rec.results ≠ [] := by
      intro hnil
      rw [hnil] at hlen2
      exact hne (List.length_eq_zero.mp hlen2.symm)
    have hbne := hinv.2.1 hresne
    cases hbo : rec.best with
    | none => exact absurd hbo hbne
    | some pair =>
      obtain ⟨f, p⟩ := pair
      obtain ⟨q1, q2, q3⟩ := hinv.2.2 f p hbo
      exact ⟨f, p, rfl, q1, q2, q3⟩
  · intro f p f2 p2 hbo hbo2
    rw [runSteps_append col uss rest (initRunState col), h1,
      Option.some_bind] at h2
    obtain ⟨-, -, hmono⟩ := runSteps_inv rest rec rec2 hinv h2
    obtain ⟨f3, p3, hb3, hle3⟩ := hmono f p hbo
    have heq := Option.some.inj (hb3.symm.trans hbo2)
    have hfe : f3 = f2 := congrArg Prod.fst heq
    rw [hfe] at hle3
    exact hle3

/-- Witness for C8: runs of `col13` for 1 and 2 steps. -/
theorem run_record_spec_witness :
    rec1demo.results.length = 1 ∧
    (∃ f p, rec1demo.best = some (f, p) ∧ f ∈ rec1demo.results ∧
      (∀ g ∈ rec1demo.results, f ≤ g) ∧
      calculatePathFitness col13.distance_matrix col13.flow_matrix p = f) ∧
    (∀ f p f2 p2, rec1demo.best = some (f, p) →
      rec2demo.best = some (f2, p2) → f2 ≤ f) :=
  run_record_spec col13 [[0]] [[0]] rec1demo rec2demo
    (by
      show runSteps col13 (initRunState col13) _ = _
      rw [initRunState_c13, runSteps_cons, runStep_c13_0, Option.some_bind,
        runSteps_nil]
      rfl)
    (by
      show runSteps col13 (initRunState col13) [[0], [0]] = _
      rw [initRunState_c13, runSteps_cons, runStep_c13_0, Option.some_bind,
        runSteps_cons, runStep_c13_1, Option.some_bind, runSteps_nil]
      rfl)
    (by simp)

/-- C9: for every nonempty path and every fitness strictly greater than `0`,
`Ant.updatePheromones` only increases entries of the pheromone store: every
entry after the call is greater than or equal to its value before, and no
entry decreases. -/
theorem updatePheromones_monotone (ph : List (List ℚ)) (path : List ℕ)
    (f : ℚ) (hf : 0 < f) (hp : path ≠ []) :
    ∀ k l, entry ph k l ≤ entry (updatePheromones ph path f) k l := by
  intro k l
  rw [updatePheromones_eq_depositList]
  exact entry_depositList_le ph (pathEdges path) (1 / f) k l
    (le_of_lt (one_div_pos.mpr hf))

/-- Witness for C9 on `ph3` with path `[1, 2]` and fitness `2`, at the
cell `(0, 1)`. -/
theorem updatePheromones_monotone_witness :
    entry ph3 0 1 ≤ entry (updatePheromones ph3 [1, 2] 2) 0 1 :=
  updatePheromones_monotone ph3 [1, 2] 2 (by norm_num) (List.cons_ne_nil _ _)
    0 1

/-- C10: for a permutation path of `1..N` on an `(N+1)×(N+1)` store and any
fitness `f > 0`, one `Ant.updatePheromones` call changes exactly the `N`
directed cells listed in `pathEdges path` — the pseudo-start cell
`(0, path[0])` and the forward cells `(path[i], path[i+1])` — adding exactly
`1/f` to each, and leaves every other cell unchanged; in particular no
diagonal cell and no reverse-direction cell is ever one of the written
cells. -/
theorem updatePheromones_frame (N : ℕ) (ph : List (List ℚ))
    (path : List ℕ) (f : ℚ) (hf : 0 < f) (hN : 0 < N)
    (hlen : path.length = N) (hnd : path.Nodup)
    (hrange : ∀ x ∈ path, 1 ≤ x ∧ x ≤ N)
    (hphl : ph.length = N + 1)
    (hrow : ∀ k, k < N + 1 → (ph.getD k []).length = N + 1) :
    (pathEdges path).length = N ∧
    (∀ e ∈ pathEdges path, entry (updatePheromones ph path f) e.1 e.2 =
      entry ph e.1 e.2 + 1 / f) ∧
    (∀ k l, (k, l) ∉ pathEdges path →
      entry (updatePheromones ph path f) k l = entry ph k l) ∧
    (∀ k, (k, k) ∉ pathEdges path) ∧
    (∀ i, i + 1 < path.length →
      (path.getD (i + 1) 0, path.getD i 0) ∉ pathEdges path) := by
  have hposx : ∀ x ∈ path, 1 ≤ x := fun x hx => (hrange x hx).1
  have hne : path ≠ [] := by
    intro hnil
    rw [hnil] at hlen
    simp at hlen
    omega
  have hb : ∀ e ∈ pathEdges path,
      e.1 < ph.length ∧ e.2 < (ph.getD e.1 []).length := by
    intro e he
    obtain ⟨h1, h2⟩ := pathEdges_bounds N path hlen hN hrange e he
    refine ⟨by rw [hphl]; exact h1, by rw [hrow e.1 h1]; exact h2⟩
  have hnd2 := pathEdges_nodup path hnd hposx
  have hupd : ∀ k l, entry (updatePheromones ph path f) k l =
      if (k, l) ∈ pathEdges path then entry ph k l + 1 / f
      else entry ph k l := by
    intro k l
    rw [updatePheromones_eq_depositList]
    exact entry_depositList ph (pathEdges path) (1 / f) hnd2 hb k l
  refine ⟨by rw [pathEdges_length path hne, hlen], ?_, ?_, ?_, ?_⟩
  · intro e he
    rw [hupd e.1 e.2, if_pos (show (e.1, e.2) ∈ pathEdges path from he)]
  · intro k l hni
    rw [hupd k l, if_neg hni]
  · intro k
    exact diag_not_mem_pathEdges path hnd hposx hne k
  · intro i hi
    exact reverse_not_mem_pathEdges path hnd hposx i hi

/-- Witness for C10 on `ph3` with path `[1, 2]` and fitness `2`. -/
theorem updatePheromones_frame_witness :
    (pathEdges [1, 2]).length = 2 ∧
    (∀ e ∈ pathEdges [1, 2], entry (updatePheromones ph3 [1, 2] 2) e.1 e.2 =
      entry ph3 e.1 e.2 + 1 / 2) ∧
    (∀ k l, (k, l) ∉ pathEdges [1, 2] →
      entry (updatePheromones ph3 [1, 2] 2) k l = entry ph3 k l) ∧
    (∀ k, (k, k) ∉ pathEdges [1, 2]) ∧
    (∀ i, i + 1 < ([1, 2] : List ℕ).length →
      (([1, 2] : List ℕ).getD (i + 1) 0, ([1, 2] : List ℕ).getD i 0) ∉
        pathEdges [1, 2]) :=
  updatePheromones_frame 2 ph3 [1, 2] 2 (by norm_num) (by norm_num)
    (by norm_num) (by norm_num) (by norm_num [List.forall_mem_cons])
    (by norm_num [ph3])
    (by
      intro k hk
      interval_cases k <;> norm_num [ph3])

end ACO
